import Mathlib

/-
Shallow embedding of the todo-app backend (the Express server in the
repository: task store plus the five /api/tasks route handlers).

Modelling conventions:
- A task's two ISO-8601 timestamp strings are modelled as natural-number
  instants; the calls to obtain the current time inside one request
  handler are modelled as a single instant `now` passed to the handler.
- `Math.random().toString(36).substr(2, 9)` is modelled as an arbitrary
  string parameter `rand`; `Date.now()` as the `now` parameter.
- Persisting is explicit: each mutating handler returns its HTTP
  response together with `Option (List Task)`, where `some w` means the
  handler called writeTasks with collection `w`, and `none` means no
  write was performed.
- The on-disk file is modelled by `FileState`, distinguishing the cases
  the readTasks function distinguishes: file missing, read throwing an
  IO error, blank content, content JSON.parse rejects, and content that
  parses to a task list.
-/

set_option autoImplicit false

namespace TodoApp

/-- A JSON-like value as it can appear in the request body field `text`.
Only the shapes the validation distinguishes are modelled: strings,
numbers, booleans and null; an absent field is `Option.none` at the use
site. JavaScript numbers are modelled as integers, since the handlers
never compute with them and only test truthiness. -/
inductive JsVal where
  | str (s : String)
  | num (n : Int)
  | jsBool (b : Bool)
  | null
deriving Repr, DecidableEq

/-- Whitespace as stripped by the JavaScript `trim()` method, restricted
to the ASCII whitespace characters (the handlers only ever compare the
trimmed text against the empty string, and the repository's own texts
are ASCII). -/
def jsWhitespace (c : Char) : Bool :=
  c == ' ' || c == '\t' || c == '\n' || c == '\r' || c == '\x0b' || c == '\x0c'

/-- The JavaScript `s.trim()`: the string with leading and trailing
whitespace removed, modelled over the string's character list. -/
def jsTrim (s : String) : String :=
  String.mk (((s.data.dropWhile jsWhitespace).reverse.dropWhile jsWhitespace).reverse)

/-- JavaScript truthiness of the optional body field `text`, as tested by
the expression `!text` (an absent field is `undefined`, which is falsy). -/
def jsTruthy : Option JsVal → Bool
  | none => false
  | some (JsVal.str s) => !(s == "")
  | some (JsVal.num n) => !(n == 0)
  | some (JsVal.jsBool b) => b
  | some JsVal.null => false

/-- The test `typeof text === 'string'` on the optional body field. -/
def jsIsString : Option JsVal → Bool
  | some (JsVal.str _) => true
  | _ => false

/-- The test `text.trim() === ''`, guarded in the source by the earlier
disjuncts so that it is only ever evaluated on a string. -/
def trimEmpty : Option JsVal → Bool
  | some (JsVal.str s) => jsTrim s == ""
  | _ => false

/-- The rejection condition of the POST handler:
`!text || typeof text !== 'string' || text.trim() === ''`. -/
def textRejected (text : Option JsVal) : Bool :=
  !jsTruthy text || !jsIsString text || trimEmpty text

/-- A task record as persisted in tasks.json: fields id, text, completed,
createdAt, updatedAt. Timestamps are modelled as natural numbers. -/
structure Task where
  id : String
  text : String
  completed : Bool
  createdAt : Nat
  updatedAt : Nat
deriving Repr, DecidableEq

/-- The state of the persisted tasks file as distinguished by readTasks:
missing (fs.access rejects), unreadable (fs.readFile throws an IO error),
blank (content trims to the empty string), unparseable (JSON.parse
throws), or parsed content. -/
inductive FileState where
  | missing
  | unreadable
  | blank
  | unparseable
  | parsed (tasks : List Task)
deriving Repr, DecidableEq

/-- readTasks: returns the parsed task list; a missing file is created as
`[]` and `[]` returned; blank content yields `[]`; any thrown error
(read IO error, JSON.parse failure) is caught by the surrounding
try/catch, logged, and `[]` returned. It never throws. -/
def readTasks : FileState → List Task
  | FileState.missing => []
  | FileState.unreadable => []
  | FileState.blank => []
  | FileState.unparseable => []
  | FileState.parsed tasks => tasks

/-- Id generation at task creation:
`Date.now().toString() + Math.random().toString(36).substr(2, 9)`. -/
def genId (now : Nat) (rand : String) : String :=
  toString now ++ rand

/-- The newTask object built by the POST handler from a body text `s`
that passed validation: trimmed text, completed false, both timestamps
the current instant, id from the current instant and the random draw. -/
def newTask (s : String) (now : Nat) (rand : String) : Task :=
  { id := genId now rand
    text := jsTrim s
    completed := false
    createdAt := now
    updatedAt := now }

/-- Response of GET /api/tasks: 200 with the task array, or 500 with an
error object. The 500 branch is the handler's catch block. -/
inductive ListResp where
  | ok (tasks : List Task)
  | storeFailure (error : String)
deriving Repr, DecidableEq

/-- HTTP status code of a GET /api/tasks response. -/
def ListResp.status : ListResp → Nat
  | ListResp.ok _ => 200
  | ListResp.storeFailure _ => 500

/-- GET /api/tasks: reads the tasks and returns them as JSON. readTasks
never throws, so the catch branch producing `storeFailure` is
unreachable for any file state. -/
def getApiTasks (st : FileState) : ListResp :=
  ListResp.ok (readTasks st)

/-- Response of POST /api/tasks: 400 with an error message, or 201 with
the created task. -/
inductive AddResp where
  | badRequest (error : String)
  | created (task : Task)
deriving Repr, DecidableEq

/-- HTTP status code of a POST /api/tasks response. -/
def AddResp.status : AddResp → Nat
  | AddResp.badRequest _ => 400
  | AddResp.created _ => 201

/-- POST /api/tasks on the loaded collection `tasks` (the handler obtains
it via readTasks): validates the body's text field, then appends the
newTask and writes the extended collection. -/
def postApiTasks (tasks : List Task) (text : Option JsVal) (now : Nat) (rand : String) :
    AddResp × Option (List Task) :=
  if textRejected text then
    (AddResp.badRequest "Task text is required and must be a non-empty string", none)
  else
    match text with
    | some (JsVal.str s) =>
        (AddResp.created (newTask s now rand), some (tasks ++ [newTask s now rand]))
    | _ =>
        (AddResp.badRequest "Task text is required and must be a non-empty string", none)

/-- Response of PUT /api/tasks/:id: 404 with an error message, or 200
with the updated task. -/
inductive ToggleResp where
  | notFound (error : String)
  | updated (task : Task)
deriving Repr, DecidableEq

/-- HTTP status code of a PUT /api/tasks/:id response. -/
def ToggleResp.status : ToggleResp → Nat
  | ToggleResp.notFound _ => 404
  | ToggleResp.updated _ => 200

/-- The in-place mutation of the matched task:
`tasks[taskIndex].completed = !tasks[taskIndex].completed;
tasks[taskIndex].updatedAt = <now>`. -/
def toggledTask (t : Task) (now : Nat) : Task :=
  { t with completed := !t.completed, updatedAt := now }

/-- findIndex of the first task whose id matches, followed by the
in-place toggle of that element: returns the updated task and the
collection with that one element replaced, or none when no task
matches. -/
def toggleFirst (id : String) (now : Nat) : List Task → Option (Task × List Task)
  | [] => none
  | t :: ts =>
      if t.id == id then
        some (toggledTask t now, toggledTask t now :: ts)
      else
        match toggleFirst id now ts with
        | none => none
        | some (u, ts') => some (u, t :: ts')

/-- PUT /api/tasks/:id on the loaded collection: 404 if findIndex is -1,
otherwise flips completed, refreshes updatedAt, writes the whole
collection back, and returns the updated task. -/
def putApiTasksId (tasks : List Task) (id : String) (now : Nat) :
    ToggleResp × Option (List Task) :=
  match toggleFirst id now tasks with
  | none => (ToggleResp.notFound "Task not found", none)
  | some (u, ts) => (ToggleResp.updated u, some ts)

/-- Response of DELETE /api/tasks/:id: 404 with an error message, or 200
with an object whose literal keys are message, deletedId and
remainingTasks. -/
inductive DeleteResp where
  | notFound (error : String)
  | okJson (message : String) (deletedId : String) (remainingTasks : Nat)
deriving Repr, DecidableEq

/-- HTTP status code of a DELETE /api/tasks/:id response. -/
def DeleteResp.status : DeleteResp → Nat
  | DeleteResp.notFound _ => 404
  | DeleteResp.okJson _ _ _ => 200

/-- The literal key names of the JSON object sent on a successful
DELETE /api/tasks/:id: res.json sends message, deletedId and
remainingTasks. -/
def deleteSuccessKeys : List String :=
  ["message", "deletedId", "remainingTasks"]

/-- DELETE /api/tasks/:id on the loaded collection: filters out every
task whose id equals the parameter; 404 when the filtered length equals
the original length, otherwise writes the filtered collection and
responds with the deleted id and the remaining count. -/
def deleteApiTasksId (tasks : List Task) (id : String) :
    DeleteResp × Option (List Task) :=
  let filteredTasks := tasks.filter (fun t => !(t.id == id))
  if tasks.length = filteredTasks.length then
    (DeleteResp.notFound "Task not found", none)
  else
    (DeleteResp.okJson "Task deleted successfully" id filteredTasks.length,
     some filteredTasks)

/-- Response of DELETE /api/tasks/clear/completed: always 200, with an
object whose literal keys are message, cleared and remaining. -/
inductive ClearResp where
  | okJson (message : String) (cleared : Nat) (remaining : Nat)
deriving Repr, DecidableEq

/-- The literal key names of the JSON object sent by
DELETE /api/tasks/clear/completed on either branch: message, cleared and
remaining. -/
def clearSuccessKeys : List String :=
  ["message", "cleared", "remaining"]

/-- DELETE /api/tasks/clear/completed on the loaded collection:
partitions into completed and active tasks; when no task is completed,
responds cleared 0 and remaining the full length with no write;
otherwise writes the active tasks and reports the two counts. -/
def deleteApiTasksClearCompleted (tasks : List Task) :
    ClearResp × Option (List Task) :=
  let completedTasks := tasks.filter (fun t => t.completed)
  let activeTasks := tasks.filter (fun t => !t.completed)
  if completedTasks.length = 0 then
    (ClearResp.okJson "No completed tasks to clear" 0 tasks.length, none)
  else
    (ClearResp.okJson "Completed tasks cleared successfully"
       completedTasks.length activeTasks.length,
     some activeTasks)

/-- Sample completed task used by concrete witnesses. -/
def doneTask : Task :=
  { id := "d1", text := "done", completed := true, createdAt := 1, updatedAt := 2 }

/-- Sample active task used by concrete witnesses. -/
def activeTask : Task :=
  { id := "a1", text := "active", completed := false, createdAt := 3, updatedAt := 3 }

/-- A task whose id happens to equal the id the generator produces at
instant 5 with random suffix abc. -/
def clashTask : Task :=
  { id := genId 5 "abc", text := "x", completed := false, createdAt := 5, updatedAt := 5 }

/-- A pair of distinct tasks sharing one id, exhibiting what the delete
handler does when the uniqueness invariant is already broken. -/
def dupTaskA : Task :=
  { id := "a", text := "first", completed := false, createdAt := 0, updatedAt := 0 }

-- ===================== helper lemmas =====================

theorem textRejected_str_false {s : String} (h : ¬ jsTrim s = "") :
    textRejected (some (JsVal.str s)) = false := by
  have hs : ¬ s = "" := by
    intro hs
    exact h (by subst hs; rfl)
  simp [textRejected, jsTruthy, jsIsString, trimEmpty, hs, h]

theorem toggleFirst_eq_none {id : String} {now : Nat} {tasks : List Task}
    (h : ∀ t ∈ tasks, (t.id == id) = false) :
    toggleFirst id now tasks = none := by
  induction tasks with
  | nil => rfl
  | cons t ts ih =>
      have ht := h t (List.mem_cons_self t ts)
      have hts := ih fun u hu => h u (List.mem_cons_of_mem t hu)
      simp [toggleFirst, ht, hts]

theorem length_filter_add_countP (id : String) (tasks : List Task) :
    (tasks.filter (fun t => !(t.id == id))).length
      + tasks.countP (fun t => t.id == id) = tasks.length := by
  induction tasks with
  | nil => rfl
  | cons t ts ih =>
      rw [List.filter_cons, List.countP_cons]
      by_cases h : (t.id == id) = true
      · simp [h]
        omega
      · simp [h]
        omega

theorem countP_id_eq_one {tasks : List Task} {orig : Task} {id : String}
    (hnodup : (tasks.map Task.id).Nodup) (hmem : orig ∈ tasks) (hid : orig.id = id) :
    tasks.countP (fun t => t.id == id) = 1 := by
  induction tasks with
  | nil => cases hmem
  | cons t ts ih =>
      rw [List.map_cons, List.nodup_cons] at hnodup
      rcases List.mem_cons.mp hmem with hmem | hmem
      · subst hmem
        have hzero : ts.countP (fun t => t.id == id) = 0 := by
          rw [List.countP_eq_zero]
          intro u hu hui
          have huid : u.id = orig.id := hid ▸ beq_iff_eq.mp hui
          exact hnodup.1 (huid ▸ List.mem_map_of_mem Task.id hu)
        rw [List.countP_cons, hzero, if_pos (by simp [hid])]
      · have ht : (t.id == id) = false := by
          rw [beq_eq_false_iff_ne]
          intro hti
          have : orig.id ∈ List.map Task.id ts := hid ▸ List.mem_map_of_mem Task.id hmem
          exact hnodup.1 (hti ▸ hid ▸ this)
        rw [List.countP_cons, ht, if_neg (by simp)]
        simpa using ih hnodup.2 hmem

theorem find?_eq_some_decomp {id : String} {tasks : List Task} {orig : Task}
    (h : tasks.find? (fun t => t.id == id) = some orig) :
    (orig.id == id) = true ∧
    tasks = tasks.takeWhile (fun t => !(t.id == id))
      ++ orig :: (tasks.dropWhile (fun t => !(t.id == id))).tail := by
  induction tasks with
  | nil => cases h
  | cons t ts ih =>
      by_cases ht : (t.id == id) = true
      · rw [List.find?_cons_of_pos (p := fun t => t.id == id) ts ht] at h
        obtain rfl : t = orig := by injection h
        refine ⟨ht, ?_⟩
        rw [List.takeWhile_cons, List.dropWhile_cons]
        simp [ht]
      · rw [List.find?_cons_of_neg (p := fun t => t.id == id) ts (by simp [ht])] at h
        obtain ⟨h1, h2⟩ := ih h
        refine ⟨h1, ?_⟩
        rw [List.takeWhile_cons, List.dropWhile_cons]
        simp only [ht, Bool.not_false, if_true]
        simpa [ht] using congrArg (t :: ·) h2

theorem toggleFirst_eq_some {id : String} {tasks : List Task} {orig : Task} (now : Nat)
    (h : tasks.find? (fun t => t.id == id) = some orig) :
    toggleFirst id now tasks =
      some (toggledTask orig now,
        tasks.takeWhile (fun t => !(t.id == id))
          ++ toggledTask orig now :: (tasks.dropWhile (fun t => !(t.id == id))).tail) := by
  induction tasks with
  | nil => cases h
  | cons t ts ih =>
      by_cases ht : (t.id == id) = true
      · rw [List.find?_cons_of_pos (p := fun t => t.id == id) ts ht] at h
        obtain rfl : t = orig := by injection h
        rw [List.takeWhile_cons, List.dropWhile_cons]
        simp [toggleFirst, ht]
      · rw [List.find?_cons_of_neg (p := fun t => t.id == id) ts (by simp [ht])] at h
        rw [List.takeWhile_cons, List.dropWhile_cons]
        simp only [ht, Bool.not_false, if_true]
        simp [toggleFirst, ht, ih h]

theorem find?_prefix_false {p : Task → Bool} {l : List Task}
    (hl : ∀ a ∈ l, p a = false) {x : Task} (hx : p x = true) (r : List Task) :
    (l ++ x :: r).find? p = some x := by
  induction l with
  | nil =>
      rw [List.nil_append]
      exact List.find?_cons_of_pos r hx
  | cons a l ih =>
      have ha := hl a (List.mem_cons_self a l)
      rw [List.cons_append, List.find?_cons_of_neg _ (by simp [ha])]
      exact ih fun b hb => hl b (List.mem_cons_of_mem a hb)

theorem find?_toggled_written {id : String} {tasks : List Task} {orig : Task} (now : Nat)
    (h : tasks.find? (fun t => t.id == id) = some orig) :
    (tasks.takeWhile (fun t => !(t.id == id))
       ++ toggledTask orig now :: (tasks.dropWhile (fun t => !(t.id == id))).tail).find?
      (fun t => t.id == id) = some (toggledTask orig now) := by
  have hp : (orig.id == id) = true := (find?_eq_some_decomp h).1
  refine find?_prefix_false ?_ ?_ _
  · intro a ha
    have := List.mem_takeWhile_imp ha
    simpa using this
  · simpa [toggledTask] using hp

-- ===================== claim theorems =====================

/-- C1: for every text that is a string and non-empty after trimming
whitespace, a successful Add appends exactly one new Task to the
Collection, with the trimmed input as its text, completed false and
createdAt equal to updatedAt, returns that Task with status 201, and a
subsequent List contains it. -/
theorem add_appends_one_new_task (tasks : List Task) (s : String) (now : Nat) (rand : String)
    (h : ¬ jsTrim s = "") :
    postApiTasks tasks (some (JsVal.str s)) now rand =
      (AddResp.created (newTask s now rand), some (tasks ++ [newTask s now rand])) ∧
    (AddResp.created (newTask s now rand)).status = 201 ∧
    (newTask s now rand).text = jsTrim s ∧
    (newTask s now rand).completed = false ∧
    (newTask s now rand).createdAt = (newTask s now rand).updatedAt ∧
    newTask s now rand ∈ tasks ++ [newTask s now rand] ∧
    getApiTasks (FileState.parsed (tasks ++ [newTask s now rand])) =
      ListResp.ok (tasks ++ [newTask s now rand]) := by
  refine ⟨?_, rfl, rfl, rfl, rfl, ?_, rfl⟩
  · simp [postApiTasks, textRejected_str_false h]
  · exact List.mem_append_right _ (List.mem_singleton_self _)

/-- Witness for C1 at the concrete input text " buy milk ". -/
theorem add_appends_one_new_task_witness :
    (¬ jsTrim " buy milk " = "") ∧
    postApiTasks [doneTask] (some (JsVal.str " buy milk ")) 7 "r1" =
      (AddResp.created (newTask " buy milk " 7 "r1"),
       some ([doneTask] ++ [newTask " buy milk " 7 "r1"])) ∧
    (newTask " buy milk " 7 "r1").text = "buy milk" :=
  ⟨by decide,
   (add_appends_one_new_task [doneTask] " buy milk " 7 "r1" (by decide)).1,
   by decide⟩

/-- C5: for every body text that is not a string, or trims to the empty
string, Add responds 400 with the validation error and performs no
write, so the persisted Collection is not mutated. -/
theorem add_invalid_text_rejected (tasks : List Task) (v : Option JsVal)
    (now : Nat) (rand : String)
    (h : jsIsString v = false ∨ trimEmpty v = true) :
    postApiTasks tasks v now rand =
      (AddResp.badRequest "Task text is required and must be a non-empty string", none) ∧
    (AddResp.badRequest "Task text is required and must be a non-empty string").status
      = 400 := by
  have hrej : textRejected v = true := by
    rcases h with h | h
    · simp [textRejected, h]
    · simp [textRejected, h]
  exact ⟨by simp [postApiTasks, hrej], rfl⟩

/-- Witness for C5 at the concrete whitespace-only input "   ". -/
theorem add_invalid_text_rejected_witness :
    (jsIsString (some (JsVal.str "   ")) = false ∨
      trimEmpty (some (JsVal.str "   ")) = true) ∧
    postApiTasks [doneTask] (some (JsVal.str "   ")) 7 "r1" =
      (AddResp.badRequest "Task text is required and must be a non-empty string", none) :=
  ⟨Or.inr (by decide),
   (add_invalid_text_rejected [doneTask] (some (JsVal.str "   ")) 7 "r1"
     (Or.inr (by decide))).1⟩

/-- C3 counterexample: when reading the persisted file throws an IO
error that is neither a missing file nor unparseable content, readTasks
catches it and returns the empty list, so List responds 200 with an
empty Collection instead of the 500 store-failure response the claim
requires. -/
theorem list_swallows_read_error :
    getApiTasks FileState.unreadable = ListResp.ok [] ∧
    (getApiTasks FileState.unreadable).status = 200 ∧
    ¬ (getApiTasks FileState.unreadable).status = 500 := by
  refine ⟨rfl, rfl, by decide⟩

/-- C3 (amended): every load failure — missing file, blank content,
unparseable content, and also an IO read error — is treated as an empty
Collection; List always responds 200 with the loaded Collection and
never surfaces a load failure as a 500. -/
theorem load_failures_treated_as_empty (st : FileState) :
    getApiTasks st = ListResp.ok (readTasks st) ∧
    (getApiTasks st).status = 200 ∧
    readTasks FileState.missing = [] ∧
    readTasks FileState.unreadable = [] ∧
    readTasks FileState.blank = [] ∧
    readTasks FileState.unparseable = [] :=
  ⟨rfl, rfl, rfl, rfl, rfl, rfl⟩

/-- C6: for every Collection and every id present in no task of it,
Toggle and Delete both respond 404 Task not found and perform no write,
leaving the persisted Collection unchanged. -/
theorem unknown_id_not_found (tasks : List Task) (id : String) (now : Nat)
    (h : tasks.all (fun t => !(t.id == id)) = true) :
    putApiTasksId tasks id now = (ToggleResp.notFound "Task not found", none) ∧
    deleteApiTasksId tasks id = (DeleteResp.notFound "Task not found", none) ∧
    (ToggleResp.notFound "Task not found").status = 404 ∧
    (DeleteResp.notFound "Task not found").status = 404 := by
  have h' : ∀ t ∈ tasks, (t.id == id) = false := by
    intro t ht
    have := List.all_eq_true.mp h t ht
    simpa using this
  refine ⟨?_, ?_, rfl, rfl⟩
  · simp [putApiTasksId, toggleFirst_eq_none h']
  · have hfil : tasks.filter (fun t => !(t.id == id)) = tasks :=
      List.filter_eq_self.mpr fun t ht => by simp [h' t ht]
    simp [deleteApiTasksId, hfil]

/-- Witness for C6 with a one-task collection and the unknown id "zz". -/
theorem unknown_id_not_found_witness :
    ([doneTask].all (fun t => !(t.id == "zz")) = true) ∧
    putApiTasksId [doneTask] "zz" 9 = (ToggleResp.notFound "Task not found", none) ∧
    deleteApiTasksId [doneTask] "zz" = (DeleteResp.notFound "Task not found", none) :=
  ⟨by decide,
   (unknown_id_not_found [doneTask] "zz" 9 (by decide)).1,
   (unknown_id_not_found [doneTask] "zz" 9 (by decide)).2.1⟩

/-- C7: for every Collection containing zero completed tasks,
ClearCompleted responds with cleared 0 and the full length as remaining,
and performs no write, leaving the Collection's tasks unchanged. -/
theorem clear_completed_noop (tasks : List Task)
    (h : tasks.all (fun t => !t.completed) = true) :
    deleteApiTasksClearCompleted tasks =
      (ClearResp.okJson "No completed tasks to clear" 0 tasks.length, none) := by
  have hnil : tasks.filter (fun t => t.completed) = [] := by
    rw [List.filter_eq_nil_iff]
    intro a ha
    have := List.all_eq_true.mp h a ha
    simpa using this
  simp [deleteApiTasksClearCompleted, hnil]

/-- Witness for C7 with a collection of one active task. -/
theorem clear_completed_noop_witness :
    ([activeTask].all (fun t => !t.completed) = true) ∧
    deleteApiTasksClearCompleted [activeTask] =
      (ClearResp.okJson "No completed tasks to clear" 0 1, none) :=
  ⟨by decide, clear_completed_noop [activeTask] (by decide)⟩

/-- C4 counterexample: on a Collection with one completed task,
ClearCompleted succeeds, but the summary's literal JSON keys are
cleared and remaining, not the clearedCount and remainingCount the claim
names. -/
theorem clear_response_keys_counterexample :
    deleteApiTasksClearCompleted [doneTask] =
      (ClearResp.okJson "Completed tasks cleared successfully" 1 0, some []) ∧
    "clearedCount" ∉ clearSuccessKeys ∧
    "remainingCount" ∉ clearSuccessKeys ∧
    "cleared" ∈ clearSuccessKeys ∧
    "remaining" ∈ clearSuccessKeys := by decide

/-- C4 (amended): for every Collection with N completed and M active
tasks where N is positive, ClearCompleted writes exactly the M active
tasks, all with completed false, and reports the cleared and remaining
counts in the response fields named cleared and remaining. -/
theorem clear_completed_clears_all (tasks : List Task)
    (h : 0 < (tasks.filter (fun t => t.completed)).length) :
    deleteApiTasksClearCompleted tasks =
      (ClearResp.okJson "Completed tasks cleared successfully"
         (tasks.filter (fun t => t.completed)).length
         (tasks.filter (fun t => !t.completed)).length,
       some (tasks.filter (fun t => !t.completed))) ∧
    (tasks.filter (fun t => !t.completed)).all (fun t => !t.completed) = true ∧
    "cleared" ∈ clearSuccessKeys ∧ "remaining" ∈ clearSuccessKeys := by
  refine ⟨?_, ?_, by decide, by decide⟩
  · have hne : ¬ ((tasks.filter (fun t => t.completed)).length = 0) := by omega
    simp [deleteApiTasksClearCompleted, hne]
  · rw [List.all_eq_true]
    intro t ht
    exact (List.mem_filter.mp ht).2

/-- Witness for C4 with one completed and one active task. -/
theorem clear_completed_clears_all_witness :
    (0 < ([doneTask, activeTask].filter (fun t => t.completed)).length) ∧
    deleteApiTasksClearCompleted [doneTask, activeTask] =
      (ClearResp.okJson "Completed tasks cleared successfully" 1 1, some [activeTask]) :=
  ⟨by decide, (clear_completed_clears_all [doneTask, activeTask] (by decide)).1⟩

/-- C2 counterexample: the success response of Delete carries the
remaining count under the literal JSON key remainingTasks, not the
remainingCount key the claim names; moreover on a Collection where the
uniqueness invariant is broken (the same id twice), Delete removes both
matching tasks, shrinking the Collection by two instead of exactly
one. -/
theorem delete_removes_all_matches_counterexample :
    "remainingCount" ∉ deleteSuccessKeys ∧
    "remainingTasks" ∈ deleteSuccessKeys ∧
    deleteApiTasksId [dupTaskA, dupTaskA] "a" =
      (DeleteResp.okJson "Task deleted successfully" "a" 0, some []) := by decide

/-- C2 (amended): for every Collection whose ids are distinct (the
documented invariant) and every id present in it, Delete removes exactly
one Task — the written Collection is one shorter — the success response
carries the deleted id and the remaining count in the fields named
deletedId and remainingTasks, and a second Delete of the same id
responds 404 Task not found with no write. -/
theorem delete_removes_exactly_one (tasks : List Task) (id : String) (orig : Task)
    (hnodup : (tasks.map Task.id).Nodup) (hmem : orig ∈ tasks) (hid : orig.id = id) :
    deleteApiTasksId tasks id =
      (DeleteResp.okJson "Task deleted successfully" id
         (tasks.filter (fun t => !(t.id == id))).length,
       some (tasks.filter (fun t => !(t.id == id)))) ∧
    (tasks.filter (fun t => !(t.id == id))).length + 1 = tasks.length ∧
    deleteApiTasksId (tasks.filter (fun t => !(t.id == id))) id =
      (DeleteResp.notFound "Task not found", none) ∧
    (DeleteResp.notFound "Task not found").status = 404 ∧
    "deletedId" ∈ deleteSuccessKeys ∧ "remainingTasks" ∈ deleteSuccessKeys := by
  have hcount := countP_id_eq_one hnodup hmem hid
  have hlen := length_filter_add_countP id tasks
  rw [hcount] at hlen
  have hne : ¬ (tasks.length = (tasks.filter (fun t => !(t.id == id))).length) := by
    omega
  refine ⟨by simp [deleteApiTasksId, hne], hlen, ?_, rfl, by decide, by decide⟩
  have hagain :
      (tasks.filter (fun t => !(t.id == id))).filter (fun t => !(t.id == id))
        = tasks.filter (fun t => !(t.id == id)) :=
    List.filter_eq_self.mpr fun t ht => (List.mem_filter.mp ht).2
  simp [deleteApiTasksId, hagain]

/-- Witness for C2 deleting id d1 from a two-task collection. -/
theorem delete_removes_exactly_one_witness :
    (([doneTask, activeTask].map Task.id).Nodup ∧ doneTask ∈ [doneTask, activeTask] ∧
      doneTask.id = "d1") ∧
    deleteApiTasksId [doneTask, activeTask] "d1" =
      (DeleteResp.okJson "Task deleted successfully" "d1" 1, some [activeTask]) ∧
    deleteApiTasksId [activeTask] "d1" = (DeleteResp.notFound "Task not found", none) :=
  ⟨⟨by decide, by decide, by decide⟩,
   (delete_removes_exactly_one [doneTask, activeTask] "d1" doneTask
      (by decide) (by decide) (by decide)).1,
   (delete_removes_exactly_one [doneTask, activeTask] "d1" doneTask
      (by decide) (by decide) (by decide)).2.2.1⟩

/-- C8: for every Collection and every id present in it, toggling twice
restores the matched task's completed flag to its original value, while
each of the two applications sets updatedAt to its own instant. -/
theorem toggle_twice_restores (tasks : List Task) (id : String) (t1 t2 : Nat) (orig : Task)
    (h : tasks.find? (fun t => t.id == id) = some orig) :
    (putApiTasksId tasks id t1).1 = ToggleResp.updated (toggledTask orig t1) ∧
    (putApiTasksId ((putApiTasksId tasks id t1).2.getD tasks) id t2).1 =
      ToggleResp.updated (toggledTask (toggledTask orig t1) t2) ∧
    (toggledTask (toggledTask orig t1) t2).completed = orig.completed ∧
    (toggledTask orig t1).updatedAt = t1 ∧
    (toggledTask (toggledTask orig t1) t2).updatedAt = t2 := by
  have h1 := toggleFirst_eq_some t1 h
  have hput1 : putApiTasksId tasks id t1 =
      (ToggleResp.updated (toggledTask orig t1),
       some (tasks.takeWhile (fun t => !(t.id == id))
         ++ toggledTask orig t1 :: (tasks.dropWhile (fun t => !(t.id == id))).tail)) := by
    simp [putApiTasksId, h1]
  have hf := find?_toggled_written t1 h
  have h2 := toggleFirst_eq_some t2 hf
  refine ⟨by rw [hput1], ?_, ?_, rfl, rfl⟩
  · rw [hput1]
    simp only [Option.getD_some]
    simp [putApiTasksId, h2]
  · simp [toggledTask]

/-- Witness for C8 toggling the task a1 twice at instants 10 and 11. -/
theorem toggle_twice_restores_witness :
    ([doneTask, activeTask].find? (fun t => t.id == "a1") = some activeTask) ∧
    (putApiTasksId [doneTask, activeTask] "a1" 10).1 =
      ToggleResp.updated (toggledTask activeTask 10) ∧
    (toggledTask (toggledTask activeTask 10) 11).completed = activeTask.completed :=
  ⟨by decide,
   (toggle_twice_restores [doneTask, activeTask] "a1" 10 11 activeTask (by decide)).1,
   (toggle_twice_restores [doneTask, activeTask] "a1" 10 11 activeTask (by decide)).2.2.1⟩

/-- C10: for every Collection and every id present in it, Toggle changes
only the first matched task's completed and updatedAt fields: its id,
text and createdAt are unchanged, every task before and after it in the
Collection is unchanged, and the written Collection has the same order
and length. -/
theorem toggle_frame_effect (tasks : List Task) (id : String) (now : Nat) (orig : Task)
    (h : tasks.find? (fun t => t.id == id) = some orig) :
    putApiTasksId tasks id now =
      (ToggleResp.updated (toggledTask orig now),
       some (tasks.takeWhile (fun t => !(t.id == id))
         ++ toggledTask orig now :: (tasks.dropWhile (fun t => !(t.id == id))).tail)) ∧
    tasks = tasks.takeWhile (fun t => !(t.id == id))
      ++ orig :: (tasks.dropWhile (fun t => !(t.id == id))).tail ∧
    (toggledTask orig now).id = orig.id ∧
    (toggledTask orig now).text = orig.text ∧
    (toggledTask orig now).createdAt = orig.createdAt ∧
    (toggledTask orig now).completed = !orig.completed ∧
    (toggledTask orig now).updatedAt = now ∧
    (tasks.takeWhile (fun t => !(t.id == id))
       ++ toggledTask orig now :: (tasks.dropWhile (fun t => !(t.id == id))).tail).length
      = tasks.length := by
  obtain ⟨hp, hdecomp⟩ := find?_eq_some_decomp h
  refine ⟨by simp [putApiTasksId, toggleFirst_eq_some now h],
    hdecomp, rfl, rfl, rfl, rfl, rfl, ?_⟩
  conv_rhs => rw [hdecomp]
  simp

/-- Witness for C10 toggling the task a1 at instant 12. -/
theorem toggle_frame_effect_witness :
    ([doneTask, activeTask].find? (fun t => t.id == "a1") = some activeTask) ∧
    putApiTasksId [doneTask, activeTask] "a1" 12 =
      (ToggleResp.updated (toggledTask activeTask 12),
       some [doneTask, toggledTask activeTask 12]) ∧
    (toggledTask activeTask 12).text = activeTask.text :=
  ⟨by decide,
   (toggle_frame_effect [doneTask, activeTask] "a1" 12 activeTask (by decide)).1,
   (toggle_frame_effect [doneTask, activeTask] "a1" 12 activeTask (by decide)).2.2.2.1⟩

theorem toggleFirst_map_id {id : String} {now : Nat} {tasks : List Task}
    {u : Task} {w : List Task} (h : toggleFirst id now tasks = some (u, w)) :
    w.map Task.id = tasks.map Task.id := by
  induction tasks generalizing u w with
  | nil => cases h
  | cons t ts ih =>
      by_cases ht : (t.id == id) = true
      · simp only [toggleFirst, ht, if_true, Option.some.injEq, Prod.mk.injEq] at h
        obtain ⟨hu, hw⟩ := h
        subst hw
        simp [toggledTask]
      · rcases hrec : toggleFirst id now ts with _ | ⟨u', ts'⟩
        · simp [toggleFirst, ht, hrec] at h
        · simp only [toggleFirst, ht, hrec, Bool.false_eq_true, if_false,
            Option.some.injEq, Prod.mk.injEq] at h
          obtain ⟨hu, hw⟩ := h
          subst hw
          simp [ih hrec]

/-- C9 counterexample: Add does not check freshness of the generated id,
which is only the wall-clock milliseconds concatenated with a random
suffix; when that instant and suffix repeat a value whose id is already
in the Collection, Add appends a duplicate id, breaking the uniqueness
invariant. -/
theorem add_id_collision_counterexample :
    (postApiTasks [clashTask] (some (JsVal.str "x")) 5 "abc").2 =
      some [clashTask, newTask "x" 5 "abc"] ∧
    clashTask.id = (newTask "x" 5 "abc").id ∧
    ¬ (([clashTask, newTask "x" 5 "abc"].map Task.id).Nodup) := by decide

/-- C9 (amended): starting from any Collection whose ids are all
distinct, Toggle, Delete and ClearCompleted always leave the persisted
Collection with all-distinct ids, and Add does so whenever the id it
generates (wall-clock instant concatenated with the random suffix) is
not already present — the code itself performs no freshness check. -/
theorem ops_preserve_unique_ids (tasks : List Task) (v : Option JsVal)
    (now1 now2 : Nat) (rand togId delId : String)
    (hnodup : (tasks.map Task.id).Nodup)
    (hfresh : genId now1 rand ∉ tasks.map Task.id) :
    (((postApiTasks tasks v now1 rand).2.getD tasks).map Task.id).Nodup ∧
    (((putApiTasksId tasks togId now2).2.getD tasks).map Task.id).Nodup ∧
    (((deleteApiTasksId tasks delId).2.getD tasks).map Task.id).Nodup ∧
    (((deleteApiTasksClearCompleted tasks).2.getD tasks).map Task.id).Nodup := by
  refine ⟨?_, ?_, ?_, ?_⟩
  · by_cases hrej : textRejected v = true
    · simp [postApiTasks, hrej, hnodup]
    · have hrej' : textRejected v = false := by simpa using hrej
      rcases v with _ | v
      · exact absurd (by simp [textRejected, jsTruthy]) hrej
      rcases v with s | n | b | _
      · simp only [postApiTasks, hrej', Bool.false_eq_true, if_false, Option.getD_some]
        rw [List.map_append, List.nodup_append]
        refine ⟨hnodup, List.nodup_singleton _, ?_⟩
        intro a ha hb
        rw [List.map_singleton, List.mem_singleton] at hb
        subst hb
        exact hfresh ha
      · exact absurd (by simp [textRejected, jsIsString]) hrej
      · exact absurd (by simp [textRejected, jsIsString]) hrej
      · exact absurd (by simp [textRejected, jsIsString]) hrej
  · rcases htog : toggleFirst togId now2 tasks with _ | ⟨u, w⟩
    · simp [putApiTasksId, htog, hnodup]
    · have hmap := toggleFirst_map_id htog
      simp [putApiTasksId, htog, hmap, hnodup]
  · by_cases hd : tasks.length = (tasks.filter (fun t => !(t.id == delId))).length
    · simp [deleteApiTasksId, hd, hnodup]
    · have hsub : List.Sublist ((tasks.filter (fun t => !(t.id == delId))).map Task.id)
          (tasks.map Task.id) :=
        List.Sublist.map Task.id (List.filter_sublist tasks)
      have := List.Nodup.sublist hsub hnodup
      simp [deleteApiTasksId, hd, this]
  · by_cases hc : (tasks.filter (fun t => t.completed)).length = 0
    · simp [deleteApiTasksClearCompleted, hc, hnodup]
    · have hsub : List.Sublist ((tasks.filter (fun t => !t.completed)).map Task.id)
          (tasks.map Task.id) :=
        List.Sublist.map Task.id (List.filter_sublist tasks)
      have := List.Nodup.sublist hsub hnodup
      simp [deleteApiTasksClearCompleted, hc, this]

/-- Witness for C9 on a two-task collection with a fresh generated id. -/
theorem ops_preserve_unique_ids_witness :
    (([doneTask, activeTask].map Task.id).Nodup ∧
      genId 6 "zz" ∉ [doneTask, activeTask].map Task.id) ∧
    (((postApiTasks [doneTask, activeTask] (some (JsVal.str "x")) 6 "zz").2.getD
        [doneTask, activeTask]).map Task.id).Nodup :=
  ⟨⟨by decide, by decide⟩,
   (ops_preserve_unique_ids [doneTask, activeTask] (some (JsVal.str "x")) 6 9
      "zz" "a1" "d1" (by decide) (by decide)).1⟩

end TodoApp
